import Mathlib

/-!
Verification of the CrisisNet alert lifecycle and notification-polling core.

The development shallowly embeds, from the TypeScript source:
  * the dashboard alert decision engine (`sendFireAlert`, `queueOrSendAlert`,
    the `onData` detection handler, the manual report button, and the
    `queued_for_location` useEffect) from the crisis dashboard component;
  * the recurring poller (`startBlueskyCommentPolling`, `runOnce`) from
    `src/lib/bluesky-comments-poller.ts`;
  * the reply deduplicator and reply-processing loop from the
    bluesky-comments route;
  * the alert location cache from `src/lib/alert-location.ts` and the
    fire-detection route handler.

Remote calls (fetch to `/api/fire-detection`, bluesky SDK calls) are modelled
by explicit outcome parameters, and the list of issued remote alert calls is
kept as an observable log in the state so that "zero additional remote alert
calls" is a statement about the model.
-/

/-- Alert status values, from the `AlertStatus` union type in the dashboard
component. -/
inductive AlertStatus
  | idle
  | queued_for_location
  | sending
  | sent
  | error
  deriving DecidableEq, Repr

/-- The `AlertState` record: `{ status: AlertStatus; error: string | null }`. -/
structure AlertState where
  status : AlertStatus
  errorMsg : Option String
  deriving DecidableEq, Repr

/-- Source: `const ALERT_INITIAL: AlertState = { status: "idle", error: null }`. -/
def ALERT_INITIAL : AlertState := { status := .idle, errorMsg := none }

/-- Source: `const FIRE_CLASS = "fire"`. -/
def FIRE_CLASS : String := "fire"

/-- One labeled detection from an inference batch (the `Prediction` type;
only the fields the alert path reads are kept). -/
structure Prediction where
  «class» : String
  confidence : ℚ
  deriving DecidableEq, Repr

/-- The body of one POST to `/api/fire-detection` issued by `sendFireAlert`:
`{ lat: hasLocation ? latitude : undefined, lng: ..., radiusKm: 50, image }`. -/
structure AlertCall where
  lat : Option ℚ
  lng : Option ℚ
  radiusKm : ℚ
  image : Option String
  deriving DecidableEq, Repr

/-- Outcome of the fetch to `/api/fire-detection` inside `sendFireAlert`:
ok response, non-ok HTTP response (status code and body text), or a thrown
network error. -/
inductive FetchOutcome
  | ok
  | httpFail (code : Nat) (msg : String)
  | netFail
  deriving DecidableEq, Repr

/-- Session-visible state of the dashboard alert engine: the `alert` React
state, the `pendingImageRef` ref, and the observable log of remote alert
calls issued so far. -/
structure DashState where
  alert : AlertState
  pendingImage : Option String
  calls : List AlertCall
  deriving DecidableEq, Repr

/-- Geographic coordinates, `latitude` and `longitude` from the geolocation
hook; `none` models `hasLocation = false`. -/
def Coords := ℚ × ℚ
deriving instance DecidableEq, Repr for Coords

/-- Error text built on a non-ok response:
message nonempty gives "Failed: status message", else "Failed: status". -/
def failText (code : Nat) (msg : String) : String :=
  if msg = "" then "Failed: " ++ toString code
  else "Failed: " ++ toString code ++ " " ++ msg

/-- Request body of the POST issued by `sendFireAlert`: lat/lng are present
exactly when `hasLocation` holds, `radiusKm` is fixed at 50. -/
def alertBody (loc : Option Coords) (image : Option String) : AlertCall :=
  { lat := loc.map Prod.fst, lng := loc.map Prod.snd,
    radiusKm := 50, image := image }

/-- Embedding of `sendFireAlert(image)` (dashboard component, lines 145-181).
`loc` is the hook's current location (`none` when `hasLocation` is false),
`res` the outcome of the fetch. Returns the source's boolean result together
with the updated state; the fetch itself is recorded on `calls`. -/
def sendFireAlert (loc : Option Coords) (image : Option String)
    (res : FetchOutcome) (s : DashState) : Bool × DashState :=
  if s.alert.status = .sending ∨ s.alert.status = .sent then (false, s)
  else
    let s1 : DashState :=
      { s with
        alert := { status := .sending, errorMsg := none }
        calls := s.calls ++ [alertBody loc image] }
    match res with
    | .ok => (true, { s1 with alert := { status := .sent, errorMsg := none } })
    | .httpFail code msg =>
        (false, { s1 with alert :=
          { status := .error, errorMsg := some (failText code msg) } })
    | .netFail =>
        (false, { s1 with alert :=
          { status := .error,
            errorMsg := some "Network error while sending alert." } })

/-- Embedding of `queueOrSendAlert(image)` (dashboard component,
lines 183-196): guard on `sent`/`sending`, queue the image when location is
unknown, otherwise delegate to `sendFireAlert` and roll back to
`ALERT_INITIAL` when the send failed and the state is not `sent`. -/
def queueOrSendAlert (loc : Option Coords) (image : Option String)
    (res : FetchOutcome) (s : DashState) : Bool × DashState :=
  if s.alert.status = .sent ∨ s.alert.status = .sending then (false, s)
  else if loc = none then
    (false, { s with
      pendingImage := image
      alert := { status := .queued_for_location, errorMsg := none } })
  else
    let r := sendFireAlert loc image res s
    if r.1 = false ∧ r.2.alert.status ≠ .sent then
      (r.1, { r.2 with alert := ALERT_INITIAL })
    else r

/-- The fire predicate of the `onData` handler:
`preds.some((p) => p.class == FIRE_CLASS)`. -/
def hasFire (preds : List Prediction) : Bool :=
  preds.any (fun p => p.«class» == FIRE_CLASS)

/-- Embedding of the `onData` detection callback (dashboard component,
lines 230-258): ignore data while the camera is hidden or the batch is empty,
then capture a frame and `queueOrSendAlert` when fire is detected and the
alert status is neither `sent` nor `sending`. `capture` is the result of
`captureFrame()` for this batch. -/
def onData (cameraVisible : Bool) (rawPreds : List Prediction)
    (loc : Option Coords) (capture : Option String) (res : FetchOutcome)
    (s : DashState) : DashState :=
  if cameraVisible = false then s
  else if rawPreds = [] then s
  else if hasFire rawPreds = true ∧ s.alert.status ≠ .sent ∧
      s.alert.status ≠ .sending then
    (queueOrSendAlert loc capture res s).2
  else s

/-- Embedding of the `queued_for_location` useEffect (dashboard component,
lines 293-301): when the status is `queued_for_location` and location has
resolved, send with the pending image (falling back to a fresh
`captureFrame()` result when no image is pending), clearing the pending image
first. -/
def queuedLocationEffect (loc : Option Coords) (capture : Option String)
    (res : FetchOutcome) (s : DashState) : DashState :=
  if s.alert.status ≠ .queued_for_location then s
  else if loc = none then s
  else
    let frame := match s.pendingImage with
      | some i => some i
      | none => capture
    (sendFireAlert loc frame res { s with pendingImage := none }).2

/-- Embedding of the manual "Report Fire" button click handler (dashboard
component, lines 625-629): blocked when no fire is on screen or the alert was
already sent, else `queueOrSendAlert` with a captured frame. -/
def reportFireClick (fireDetected : Bool) (loc : Option Coords)
    (capture : Option String) (res : FetchOutcome) (s : DashState) : DashState :=
  if fireDetected = false ∨ s.alert.status = .sent then s
  else (queueOrSendAlert loc capture res s).2

/-- Modelled from the spec glossary: a hazard label is a detection class
value treated as fire, flame, or smoke. This is the spec-worded predicate,
kept separate from the source's `hasFire` for comparison. -/
def specHazardLabel (c : String) : Bool :=
  c == "fire" || c == "flame" || c == "smoke"

/-- Spec-worded fire predicate: at least one detection in the batch carries a
hazard label in the fire/flame/smoke sense. -/
def specFireDetected (preds : List Prediction) : Bool :=
  preds.any (fun p => specHazardLabel p.«class»)

/-- Concrete session state used to exercise the deferred send path: an alert
queued for location with a pending captured frame and no call issued yet. -/
def queuedDemoState : DashState :=
  { alert := { status := .queued_for_location, errorMsg := none },
    pendingImage := some "frame", calls := [] }

/-- Shared global state of the bluesky comments poller
(`src/lib/bluesky-comments-poller.ts`): the `PollerState` record plus two
observables, `armed` counting live interval timers (incremented by
`setInterval`, decremented by `clearInterval`) and `immediateRuns` counting
the fire-and-forget `runOnce` invocations made directly by
`startBlueskyCommentPolling`. -/
structure PollerModel where
  timer : Option Int
  runningUntil : Int
  isRunning : Bool
  armed : Nat
  immediateRuns : Nat
  deriving DecidableEq, Repr

/-- Initial poller state produced by `getState()` on first access:
`{ timer: null, runningUntil: 0, isRunning: false }`. -/
def pollerInit : PollerModel :=
  { timer := none, runningUntil := 0, isRunning := false,
    armed := 0, immediateRuns := 0 }

/-- One invocation of `startBlueskyCommentPolling`: the wall-clock time of
the call and the options object. -/
structure StartCall where
  now : Int
  durationMs : Option Int
  intervalMs : Option Int
  deriving DecidableEq, Repr

/-- Requested deadline of a start call, after defaulting:
`now + (durationMs ?? 10 * 60 * 1000)`. -/
def requestedDeadline (c : StartCall) : Int :=
  c.now + c.durationMs.getD (10 * 60 * 1000)

/-- Embedding of `startBlueskyCommentPolling(options)` (poller lines 47-83):
extend `runningUntil` to the max of the existing deadline and the requested
one; when a timer is already armed, return without arming a second; otherwise
invoke `runOnce` fire-and-forget and arm a repeating timer at the requested
interval (the timer handle stores the interval). -/
def startBlueskyCommentPolling (c : StartCall) (s : PollerModel) : PollerModel :=
  let intervalMs := c.intervalMs.getD (10 * 1000)
  let s := { s with runningUntil := max s.runningUntil (requestedDeadline c) }
  if s.timer.isSome then s
  else
    { s with
      immediateRuns := s.immediateRuns + 1
      timer := some intervalMs
      armed := s.armed + 1 }

/-- Embedding of `runOnce()` (poller lines 23-45) with the exception flow
explicit: the fetch outcome `res` may be a thrown error; the try/catch
swallows it (both branches fall through to the logging), and the `finally`
resets `isRunning`. The overall result is in `Except` so that "the error is
never propagated" is a statement about the model; the returned boolean tells
whether the fetch was actually performed (false = skipped by the guard). -/
def runOnce (res : Except String Unit) (s : PollerModel) :
    Except String (PollerModel × Bool) :=
  if s.isRunning then Except.ok (s, false)
  else
    let s1 := { s with isRunning := true }
    let caught : Except String Unit :=
      match res with
      | Except.ok _ => Except.ok ()
      | Except.error _ => Except.ok ()
    match caught with
    | Except.ok _ => Except.ok ({ s1 with isRunning := false }, true)
    | Except.error e => Except.error e

/-- Embedding of the interval callback armed by `startBlueskyCommentPolling`
(poller lines 73-82): past the deadline, clear the interval and null the
handle; otherwise `void runOnce()`. -/
def intervalTick (now : Int) (res : Except String Unit) (s : PollerModel) :
    PollerModel :=
  if s.runningUntil < now then
    { s with timer := none, armed := s.armed - 1 }
  else
    match runOnce res s with
    | Except.ok r => r.1
    | Except.error _ => s

/-- Abstract state for the interleaved view of `runOnce`: `isRunning` is the
shared guard flag, `inFlight` counts executions that passed the guard and
have not yet run their `finally`, and `started` counts fetches begun. -/
structure RunState where
  isRunning : Bool
  inFlight : Nat
  started : Nat
  deriving DecidableEq, Repr

/-- Interleaving events for `runOnce`: a timer firing entering `runOnce`
(its synchronous prefix up to the fetch), and the completion of an in-flight
execution (its `finally` block). -/
inductive PollEv
  | fire
  | complete
  deriving DecidableEq, Repr

/-- Small-step semantics of one `runOnce` event over the shared state: a
firing that finds `isRunning` set is dropped entirely; otherwise it sets the
flag and starts the fetch. A completion clears the flag in `finally`. -/
def pollStep (s : RunState) (e : PollEv) : RunState :=
  match e with
  | .fire =>
      if s.isRunning then s
      else { isRunning := true, inFlight := s.inFlight + 1,
             started := s.started + 1 }
  | .complete =>
      if s.inFlight = 0 then s
      else { isRunning := false, inFlight := s.inFlight - 1,
             started := s.started }

/-- Initial interleaving state: no execution in flight. -/
def runInit : RunState := { isRunning := false, inFlight := 0, started := 0 }

/-- Re-entrancy invariant of the tick action: at most one execution in
flight, and the guard flag is set exactly while one is. -/
def RunInv (s : RunState) : Prop :=
  s.inFlight ≤ 1 ∧ (s.isRunning = true ↔ s.inFlight = 1)

/-- Fold a sequence of `startBlueskyCommentPolling` calls over the initial
poller state (no deadline lapsing in between, so no timer callback runs). -/
def runStarts (calls : List StartCall) : PollerModel :=
  calls.foldl (fun s c => startBlueskyCommentPolling c s) pollerInit

/-- Embedding of `markResponded`: `repliedUris.add(uri)` on the module-level
`Set<string>` in the bluesky-comments route. -/
def markResponded (seen : Finset String) (id : String) : Finset String :=
  insert id seen

/-- Embedding of `hasResponded`: `repliedUris.has(uri)`. -/
def hasResponded (seen : Finset String) (id : String) : Bool :=
  id ∈ seen

/-- One inbound notification as read by the bluesky-comments route (only the
fields the filter consults). -/
structure BskyNotification where
  uri : String
  reason : String
  deriving DecidableEq, Repr

/-- Embedding of the unread-replies filter of the route:
`notifications.filter((n) => n.reason === "reply" && !repliedUris.has(n.uri))`. -/
def unreadReplies (seen : Finset String) (ns : List BskyNotification) :
    List BskyNotification :=
  ns.filter (fun n => n.reason == "reply" && !(hasResponded seen n.uri))

/-- Result of one reply-processing tick: the seen set afterwards, the uris
for which a response was posted (in order), and the first error thrown, if
any. -/
structure TickOutcome where
  seen : Finset String
  posted : List String
  failure : Option String

/-- Embedding of the `for (const notification of unreadReplies)` loop of the
bluesky-comments POST handler (lines 50-133): each reply is paired with the
combined outcome of its thread fetch, text generation and posting steps; on
success the uri is added to `repliedUris` immediately after the post, on a
thrown error the loop aborts (the outer catch takes over) leaving earlier
marks in place. -/
def processReplies (seen : Finset String)
    (replies : List (String × Except String Unit)) : TickOutcome :=
  match replies with
  | [] => { seen := seen, posted := [], failure := none }
  | (uri, out) :: rest =>
    match out with
    | Except.error e => { seen := seen, posted := [], failure := some e }
    | Except.ok _ =>
      let t := processReplies (markResponded seen uri) rest
      { seen := t.seen, posted := uri :: t.posted, failure := t.failure }

/-- Embedding of the bluesky-comments POST handler around the loop:
`preludeOk` covers the login, sensor fetch and notification listing before
the loop (any throw there hits the outer catch with the seen set untouched);
a throw inside the loop hits the same catch and returns 500; after the loop
the handler runs `await agent.updateSeenNotifications()` (line 135), whose
outcome `updateSeenOk` can also throw into the catch — then the response is
500 even though every reply was posted and marked; only if all three stages
succeed is 200 returned. -/
def blueskyCommentsPOST (preludeOk : Bool) (seen : Finset String)
    (replies : List (String × Except String Unit)) (updateSeenOk : Bool) :
    Finset String × Nat :=
  if preludeOk = false then (seen, 500)
  else
    let t := processReplies seen replies
    match t.failure with
    | some _ => (t.seen, 500)
    | none =>
      if updateSeenOk = false then (t.seen, 500)
      else (t.seen, 200)

/-- The `AlertLocation` record of `src/lib/alert-location.ts`. -/
structure AlertLocation where
  lat : ℚ
  lng : ℚ
  updatedAt : Int
  deriving DecidableEq, Repr

/-- Embedding of `setAlertLocation(lat, lng)`: unconditionally overwrite the
module-level `latestAlertLocation` with `{ lat, lng, updatedAt: Date.now() }`. -/
def setAlertLocation (lat lng : ℚ) (now : Int) (_prev : Option AlertLocation) :
    Option AlertLocation :=
  some { lat := lat, lng := lng, updatedAt := now }

/-- Embedding of `getAlertLocation()`: return the stored record or null. -/
def getAlertLocation (st : Option AlertLocation) : Option AlertLocation := st

/-- A JSON value in a request-body field, as far as the `typeof` checks of
the fire-detection route distinguish them. -/
inductive JVal
  | num (q : ℚ)
  | str (s : String)
  | boolean (b : Bool)
  | undef
  deriving DecidableEq, Repr

/-- The `typeof x === "number"` test. -/
def JVal.isNumber : JVal → Bool
  | .num _ => true
  | _ => false

/-- Request body of the fire-detection route (the fields the handler reads). -/
structure FireBody where
  lat : JVal
  lng : JVal
  image : Option String
  deriving DecidableEq, Repr

/-- Process-wide server state touched by the fire-detection route: the alert
location cache, the poller state, and a count of alert posts published. -/
structure ServerState where
  alertLocation : Option AlertLocation
  poller : PollerModel
  alertPosts : Nat
  deriving DecidableEq, Repr

/-- Embedding of the fire-detection POST handler
(`src/app/api/fire-detection/route.ts`): `remoteOk` covers the login, map
fetch, blob uploads and the alert post (all before line 54; any throw there
hits the catch and returns 500 with the state untouched). On success the
alert is posted, the location cache is written exactly when both `lat` and
`lng` are numbers, and the poller is started with a 10-minute duration and a
5-second interval. -/
def fireDetectionPOST (now : Int) (body : FireBody) (remoteOk : Bool)
    (st : ServerState) : ServerState × Nat :=
  if remoteOk = false then (st, 500)
  else
    let st1 := { st with alertPosts := st.alertPosts + 1 }
    let st2 :=
      match body.lat, body.lng with
      | .num a, .num b =>
          { st1 with alertLocation := setAlertLocation a b now st1.alertLocation }
      | _, _ => st1
    let call : StartCall :=
      { now := now, durationMs := some (10 * 60 * 1000),
        intervalMs := some (5 * 1000) }
    let st3 := { st2 with poller := startBlueskyCommentPolling call st2.poller }
    (st3, 200)

/-- Claim C1: whenever the alert status is `sent` or `sending`, a hazard
detection batch or a manual trigger causes zero additional remote alert
calls: `sendFireAlert` and `queueOrSendAlert` return `false` leaving the
state (hence the call log) unchanged, the `onData` handler leaves the state
unchanged, and so does the manual button handler. -/
theorem sent_sending_absorbing (s : DashState)
    (h : s.alert.status = .sent ∨ s.alert.status = .sending) :
    (∀ loc image res, sendFireAlert loc image res s = (false, s)) ∧
    (∀ loc image res, queueOrSendAlert loc image res s = (false, s)) ∧
    (∀ cam preds loc capture res, onData cam preds loc capture res s = s) ∧
    (∀ fd loc capture res, reportFireClick fd loc capture res s = s) := by
  have hsend : ∀ loc image res, sendFireAlert loc image res s = (false, s) := by
    intro loc image res
    unfold sendFireAlert
    rw [if_pos h.symm]
  have hqueue : ∀ loc image res, queueOrSendAlert loc image res s = (false, s) := by
    intro loc image res
    unfold queueOrSendAlert
    rw [if_pos h]
  refine ⟨hsend, hqueue, ?_, ?_⟩
  · intro cam preds loc capture res
    unfold onData
    rcases h with h | h <;>
      simp [h, hqueue]
  · intro fd loc capture res
    unfold reportFireClick
    rcases h with h | h
    · simp [h]
    · simp [h, hqueue]

/-- Claim C1 witness: instantiation at a concrete `sent` state. -/
theorem sent_sending_absorbing_witness :
    (∀ loc image res, sendFireAlert loc image res
        { alert := { status := .sent, errorMsg := none },
          pendingImage := none, calls := [] } =
      (false, { alert := { status := .sent, errorMsg := none },
                pendingImage := none, calls := [] })) ∧
    (∀ loc image res, queueOrSendAlert loc image res
        { alert := { status := .sent, errorMsg := none },
          pendingImage := none, calls := [] } =
      (false, { alert := { status := .sent, errorMsg := none },
                pendingImage := none, calls := [] })) ∧
    (∀ cam preds loc capture res, onData cam preds loc capture res
        { alert := { status := .sent, errorMsg := none },
          pendingImage := none, calls := [] } =
      { alert := { status := .sent, errorMsg := none },
        pendingImage := none, calls := [] }) ∧
    (∀ fd loc capture res, reportFireClick fd loc capture res
        { alert := { status := .sent, errorMsg := none },
          pendingImage := none, calls := [] } =
      { alert := { status := .sent, errorMsg := none },
        pendingImage := none, calls := [] }) :=
  sent_sending_absorbing
    { alert := { status := .sent, errorMsg := none },
      pendingImage := none, calls := [] }
    (Or.inl rfl)

/-- Claim C6 counterexample: a batch whose only detection has class "smoke"
carries a spec hazard label, yet the source predicate `hasFire` is false and
the `onData` handler issues no alert call from an idle state with location
known. -/
theorem hazard_label_counterexample :
    hasFire [{ «class» := "smoke", confidence := 9/10 }] = false ∧
    specFireDetected [{ «class» := "smoke", confidence := 9/10 }] = true ∧
    onData true [{ «class» := "smoke", confidence := 9/10 }]
        (some (1, 2)) none .ok
        { alert := ALERT_INITIAL, pendingImage := none, calls := [] } =
      { alert := ALERT_INITIAL, pendingImage := none, calls := [] } := by
  refine ⟨by decide, by decide, ?_⟩
  unfold onData
  simp [hasFire, FIRE_CLASS]

/-- Claim C6 amended: the predicate that triggers the alert path holds iff at
least one detection in the batch has class exactly `"fire"` (`FIRE_CLASS`);
classes "flame" and "smoke" do not trigger it. -/
theorem hasFire_iff_fire_class (preds : List Prediction) :
    hasFire preds = true ↔ ∃ p ∈ preds, p.«class» = FIRE_CLASS := by
  unfold hasFire
  simp [List.any_eq_true, beq_iff_eq]

/-- Behaviour of `sendFireAlert` when the entry guard does not block: the
fetch is issued exactly once, the pending image is untouched, and the
resulting status is `sent` on an ok response and `error` otherwise. -/
lemma sendFireAlert_unblocked (loc : Option Coords) (image : Option String)
    (res : FetchOutcome) (s : DashState)
    (h1 : s.alert.status ≠ .sending) (h2 : s.alert.status ≠ .sent) :
    (sendFireAlert loc image res s).2.calls = s.calls ++ [alertBody loc image] ∧
    (sendFireAlert loc image res s).2.pendingImage = s.pendingImage ∧
    ((sendFireAlert loc image res s).1 = true ↔ res = .ok) ∧
    (res = .ok → (sendFireAlert loc image res s).2.alert.status = .sent) ∧
    (res ≠ .ok → (sendFireAlert loc image res s).2.alert.status = .error) := by
  unfold sendFireAlert
  rw [if_neg (by tauto)]
  cases res <;> simp

/-- Claim C4: a hazard batch arriving while location is unresolved moves the
alert to `queued_for_location`, records the captured frame as the single
pending image (overwriting any previous one) and issues no remote call;
once location resolves from the queued state with an image pending, exactly
one remote call is issued carrying the now-known coordinates and the queued
image, the pending image is cleared, and an ok response yields `sent`. -/
theorem queued_alert_lifecycle (s : DashState) :
    (∀ preds capture res, preds ≠ [] → hasFire preds = true →
      s.alert.status ≠ .sent → s.alert.status ≠ .sending →
      onData true preds none capture res s =
        { s with pendingImage := capture,
                 alert := { status := .queued_for_location, errorMsg := none } }) ∧
    (∀ c img capture res, s.alert.status = .queued_for_location →
      s.pendingImage = some img →
      (queuedLocationEffect (some c) capture res s).calls =
        s.calls ++ [alertBody (some c) (some img)] ∧
      (queuedLocationEffect (some c) capture res s).pendingImage = none ∧
      (res = .ok →
        (queuedLocationEffect (some c) capture res s).alert.status = .sent)) := by
  constructor
  · intro preds capture res hne hf h1 h2
    unfold onData
    rw [if_neg (by simp), if_neg hne, if_pos ⟨hf, h1, h2⟩]
    unfold queueOrSendAlert
    rw [if_neg (by tauto), if_pos rfl]
  · intro c img capture res hq himg
    unfold queuedLocationEffect
    rw [if_neg (by simp [hq]), if_neg (by simp), himg]
    have h1 : (DashState.mk s.alert none s.calls).alert.status ≠ .sending := by
      simp [hq]
    have h2 : (DashState.mk s.alert none s.calls).alert.status ≠ .sent := by
      simp [hq]
    obtain ⟨hcalls, hpend, _, hok, _⟩ :=
      sendFireAlert_unblocked (some c) (some img) res
        { s with pendingImage := none } h1 h2
    exact ⟨hcalls, hpend, hok⟩

/-- Claim C4 witness: the spec scenario — a fire batch with no location
queues the frame without a call; the queued demo state then resolves at
coordinates (1, 2) and issues exactly one successful call with that frame. -/
theorem queued_alert_lifecycle_witness :
    onData true [{ «class» := "fire", confidence := 9/10 }] none (some "frame")
        .ok { alert := ALERT_INITIAL, pendingImage := none, calls := [] } =
      { alert := { status := .queued_for_location, errorMsg := none },
        pendingImage := some "frame", calls := [] } ∧
    (queuedLocationEffect (some (1, 2)) none .ok queuedDemoState).calls =
      [alertBody (some (1, 2)) (some "frame")] ∧
    (queuedLocationEffect (some (1, 2)) none .ok queuedDemoState).pendingImage =
      none ∧
    (queuedLocationEffect (some (1, 2)) none .ok queuedDemoState).alert.status =
      .sent := by
  have h1 := (queued_alert_lifecycle
    { alert := ALERT_INITIAL, pendingImage := none, calls := [] }).1
    [{ «class» := "fire", confidence := 9/10 }] (some "frame") .ok
    (by decide) (by decide) (by decide) (by decide)
  have h2 := (queued_alert_lifecycle queuedDemoState).2 (1, 2) "frame" none .ok
    rfl rfl
  exact ⟨h1, by simpa using h2.1, h2.2.1, h2.2.2 rfl⟩

/-- Claim C5 counterexample: a remote alert call made on the deferred
location-resolved path that fails with a network error leaves the alert
status at `error`; it does not reset to `idle`. -/
theorem error_reset_counterexample :
    (queuedLocationEffect (some (1, 2)) none .netFail
        queuedDemoState).alert.status = .error ∧
    (queuedLocationEffect (some (1, 2)) none .netFail
        queuedDemoState).alert.status ≠ .idle := by
  have h : (queuedLocationEffect (some (1, 2)) none .netFail
      queuedDemoState).alert.status = .error := rfl
  refine ⟨h, ?_⟩
  rw [h]
  decide

/-- Claim C5 amended: a failing remote alert call sets the status to `error`;
on the `queueOrSendAlert` path the engine then rolls straight back to the
initial `idle` state, while on the deferred location-resolved path the status
remains `error`. In both cases the failing call issued exactly one fetch (no
automatic retry), and from the resulting `idle` or `error` state a following
hazard detection with location known issues exactly one new send attempt. -/
theorem failed_send_resets_and_allows_retry (s : DashState) :
    (∀ loc image res, loc ≠ none → res ≠ .ok →
      s.alert.status ≠ .sent → s.alert.status ≠ .sending →
      (queueOrSendAlert loc image res s).2.alert = ALERT_INITIAL ∧
      (queueOrSendAlert loc image res s).2.calls =
        s.calls ++ [alertBody loc image]) ∧
    (∀ c capture res, res ≠ .ok → s.alert.status = .queued_for_location →
      (queuedLocationEffect (some c) capture res s).alert.status = .error ∧
      (queuedLocationEffect (some c) capture res s).calls.length =
        s.calls.length + 1) ∧
    (∀ preds c capture res, preds ≠ [] → hasFire preds = true →
      (s.alert.status = .idle ∨ s.alert.status = .error) →
      (onData true preds (some c) capture res s).calls =
        s.calls ++ [alertBody (some c) capture]) := by
  refine ⟨?_, ?_, ?_⟩
  · intro loc image res hloc hres h1 h2
    unfold queueOrSendAlert
    rw [if_neg (by tauto), if_neg hloc]
    obtain ⟨hcalls, _, hb, _, herr⟩ :=
      sendFireAlert_unblocked loc image res s h2 h1
    have hfail : (sendFireAlert loc image res s).1 = false := by
      cases hfb : (sendFireAlert loc image res s).1
      · rfl
      · exact absurd (hb.mp hfb) hres
    rw [if_pos ⟨hfail, by rw [herr hres]; simp⟩]
    exact ⟨rfl, hcalls⟩
  · intro c capture res hres hq
    unfold queuedLocationEffect
    rw [if_neg (by simp [hq]), if_neg (by simp)]
    have h1 : (DashState.mk s.alert none s.calls).alert.status ≠ .sending := by
      simp [hq]
    have h2 : (DashState.mk s.alert none s.calls).alert.status ≠ .sent := by
      simp [hq]
    set frame := match s.pendingImage with
      | some i => some i
      | none => capture with hframe
    obtain ⟨hcalls, _, _, _, herr⟩ :=
      sendFireAlert_unblocked (some c) frame res
        { s with pendingImage := none } h1 h2
    exact ⟨herr hres, by rw [hcalls]; simp⟩
  · intro preds c capture res hne hf hstat
    have h1 : s.alert.status ≠ .sent := by rcases hstat with h | h <;> simp [h]
    have h2 : s.alert.status ≠ .sending := by rcases hstat with h | h <;> simp [h]
    unfold onData
    rw [if_neg (by simp), if_neg hne, if_pos ⟨hf, h1, h2⟩]
    unfold queueOrSendAlert
    rw [if_neg (by tauto), if_neg (by simp)]
    obtain ⟨hcalls, _, _, _, _⟩ :=
      sendFireAlert_unblocked (some c) capture res s h2 h1
    by_cases hcond : (sendFireAlert (some c) capture res s).1 = false ∧
        (sendFireAlert (some c) capture res s).2.alert.status ≠ .sent
    · rw [if_pos hcond]
      exact hcalls
    · rw [if_neg hcond]
      exact hcalls

/-- Claim C5 amended witness: a direct failing send from idle with location
(3, 4) rolls back to the initial state after one call; the deferred failing
send from the queued demo state stays in `error` after one call; and a fresh
fire batch from idle with location known issues exactly one attempt. -/
theorem failed_send_resets_witness :
    ((queueOrSendAlert (some (3, 4)) none (.httpFail 500 "boom")
        { alert := ALERT_INITIAL, pendingImage := none,
          calls := [] }).2.alert = ALERT_INITIAL ∧
      (queueOrSendAlert (some (3, 4)) none (.httpFail 500 "boom")
        { alert := ALERT_INITIAL, pendingImage := none, calls := [] }).2.calls =
        [] ++ [alertBody (some (3, 4)) none]) ∧
    ((queuedLocationEffect (some (1, 2)) none .netFail
        queuedDemoState).alert.status = .error ∧
      (queuedLocationEffect (some (1, 2)) none .netFail
        queuedDemoState).calls.length = queuedDemoState.calls.length + 1) ∧
    (onData true [{ «class» := "fire", confidence := 9/10 }] (some (5, 6))
        none .ok { alert := ALERT_INITIAL, pendingImage := none, calls := [] }).calls =
      [] ++ [alertBody (some (5, 6)) none] := by
  have h := failed_send_resets_and_allows_retry
    { alert := ALERT_INITIAL, pendingImage := none, calls := [] }
  have hq := failed_send_resets_and_allows_retry queuedDemoState
  exact ⟨h.1 (some (3, 4)) none (.httpFail 500 "boom")
      (by simp) (by simp) (by decide) (by decide),
    hq.2.1 (1, 2) none .netFail (by simp) rfl,
    h.2.2 [{ «class» := "fire", confidence := 9/10 }] (5, 6) none .ok
      (by decide) (by decide) (Or.inl rfl)⟩

/-- Lower bound of a left max-fold by its initial value. -/
lemma le_foldl_max (l : List Int) (a : Int) : a ≤ l.foldl max a := by
  induction l generalizing a with
  | nil => exact le_refl a
  | cons x l ih => exact le_trans (le_max_left a x) (ih (max a x))

/-- Lower bound of a left max-fold by any of its elements. -/
lemma elem_le_foldl_max (l : List Int) (a : Int) :
    ∀ x ∈ l, x ≤ l.foldl max a := by
  induction l generalizing a with
  | nil => intro x hx; cases hx
  | cons y l ih =>
    intro x hx
    rcases List.mem_cons.mp hx with h | h
    · subst h
      exact le_trans (le_max_right a x) (le_foldl_max l (max a x))
    · exact ih (max a y) x h

/-- A left max-fold is either its initial value or one of the elements. -/
lemma foldl_max_eq_init_or_mem (l : List Int) (a : Int) :
    l.foldl max a = a ∨ l.foldl max a ∈ l := by
  induction l generalizing a with
  | nil => exact Or.inl rfl
  | cons y l ih =>
    rcases ih (max a y) with h | h
    · rcases max_choice a y with hm | hm
      · exact Or.inl (by rw [List.foldl_cons, h, hm])
      · exact Or.inr (by rw [List.foldl_cons, h, hm]; exact List.mem_cons_self y l)
    · exact Or.inr (List.mem_cons_of_mem y h)

/-- The deadline after a start call is the max of the existing deadline and
the requested one, whichever branch is taken. -/
lemma start_runningUntil (c : StartCall) (s : PollerModel) :
    (startBlueskyCommentPolling c s).runningUntil =
      max s.runningUntil (requestedDeadline c) := by
  unfold startBlueskyCommentPolling
  by_cases ht : s.timer.isSome = true <;> simp [ht]

/-- A start call never touches timer or armed-count when a timer is live. -/
lemma start_timer_live (c : StartCall) (s : PollerModel)
    (h : s.timer.isSome = true) :
    (startBlueskyCommentPolling c s).timer = s.timer ∧
    (startBlueskyCommentPolling c s).armed = s.armed ∧
    (startBlueskyCommentPolling c s).immediateRuns = s.immediateRuns := by
  unfold startBlueskyCommentPolling
  rw [if_pos h]
  exact ⟨rfl, rfl, rfl⟩

/-- The armed-count invariant (one live interval timer iff the handle is
set) is preserved by every start call. -/
lemma start_armed_inv (c : StartCall) (s : PollerModel)
    (h : s.armed = if s.timer.isSome then 1 else 0) :
    (startBlueskyCommentPolling c s).armed =
      if (startBlueskyCommentPolling c s).timer.isSome then 1 else 0 := by
  unfold startBlueskyCommentPolling
  by_cases ht : s.timer.isSome
  · rw [if_pos ht]
    simpa [ht] using h
  · rw [if_neg ht]
    simp only [Option.isSome_some, if_true]
    rw [h, if_neg ht]

/-- The armed-count invariant propagated through a fold of start calls. -/
lemma runStarts_armed_inv (calls : List StartCall) :
    ∀ s : PollerModel, s.armed = (if s.timer.isSome then 1 else 0) →
      (calls.foldl (fun s c => startBlueskyCommentPolling c s) s).armed =
        if (calls.foldl (fun s c => startBlueskyCommentPolling c s) s).timer.isSome
        then 1 else 0 := by
  induction calls with
  | nil => intro s h; exact h
  | cons c calls ih =>
    intro s h
    exact ih (startBlueskyCommentPolling c s) (start_armed_inv c s h)

/-- The deadline after a fold of start calls is the max-fold of the
requested deadlines. -/
lemma runStarts_runningUntil (calls : List StartCall) :
    ∀ s : PollerModel,
      (calls.foldl (fun s c => startBlueskyCommentPolling c s) s).runningUntil =
        (calls.map requestedDeadline).foldl max s.runningUntil := by
  induction calls with
  | nil => intro s; rfl
  | cons c calls ih =>
    intro s
    rw [List.foldl_cons, List.map_cons, List.foldl_cons, ih, start_runningUntil]

/-- Claim C2: folding any nonempty sequence of `startBlueskyCommentPolling`
calls (each with a nonnegative requested deadline) from the initial poller
state leaves at most one live timer; the effective deadline is one of the
requested deadlines and bounds them all (it is their maximum); a call that
finds the timer non-null changes neither the timer nor the armed count; and
`runningUntil` never decreases across a start call. -/
theorem poller_start_coalesces (calls : List StartCall)
    (hne : calls ≠ [])
    (hnn : ∀ c ∈ calls, 0 ≤ requestedDeadline c) :
    (runStarts calls).armed ≤ 1 ∧
    (runStarts calls).runningUntil ∈ calls.map requestedDeadline ∧
    (∀ c ∈ calls, requestedDeadline c ≤ (runStarts calls).runningUntil) ∧
    (∀ s c, s.timer.isSome = true →
      (startBlueskyCommentPolling c s).timer = s.timer ∧
      (startBlueskyCommentPolling c s).armed = s.armed) ∧
    (∀ s c, s.runningUntil ≤ (startBlueskyCommentPolling c s).runningUntil) := by
  have harm := runStarts_armed_inv calls pollerInit rfl
  have hrun := runStarts_runningUntil calls pollerInit
  refine ⟨?_, ?_, ?_, ?_, ?_⟩
  · rw [runStarts] at *
    rw [harm]
    split <;> omega
  · rw [runStarts, hrun]
    show (calls.map requestedDeadline).foldl max 0 ∈ calls.map requestedDeadline
    rcases foldl_max_eq_init_or_mem (calls.map requestedDeadline) 0 with h | h
    · obtain ⟨c, hc⟩ := List.exists_mem_of_ne_nil calls hne
      have hle : requestedDeadline c ≤ 0 := by
        rw [← h]
        exact elem_le_foldl_max _ 0 _ (List.mem_map_of_mem requestedDeadline hc)
      have hge := hnn c hc
      have hzero : requestedDeadline c = 0 := le_antisymm hle hge
      rw [h, ← hzero]
      exact List.mem_map_of_mem requestedDeadline hc
    · exact h
  · intro c hc
    rw [runStarts, hrun]
    exact elem_le_foldl_max _ 0 _ (List.mem_map_of_mem requestedDeadline hc)
  · intro s c h
    exact ⟨(start_timer_live c s h).1, (start_timer_live c s h).2.1⟩
  · intro s c
    rw [start_runningUntil]
    exact le_max_left _ _

/-- Claim C2 witness: two start calls, the second issued while the first
timer is live; one timer remains armed and the deadline is among (and above)
the requested deadlines. -/
theorem poller_start_coalesces_witness :
    (runStarts [⟨0, some 1000, some 10⟩, ⟨5, some 2000, some 20⟩]).armed ≤ 1 ∧
    (runStarts [⟨0, some 1000, some 10⟩, ⟨5, some 2000, some 20⟩]).runningUntil ∈
      ([⟨0, some 1000, some 10⟩, ⟨5, some 2000, some 20⟩] :
        List StartCall).map requestedDeadline ∧
    requestedDeadline ⟨0, some 1000, some 10⟩ ≤
      (runStarts [⟨0, some 1000, some 10⟩, ⟨5, some 2000, some 20⟩]).runningUntil := by
  have h := poller_start_coalesces
    [⟨0, some 1000, some 10⟩, ⟨5, some 2000, some 20⟩] (by decide) (by decide)
  exact ⟨h.1, h.2.1, h.2.2.1 ⟨0, some 1000, some 10⟩ (by decide)⟩

/-- One event preserves the re-entrancy invariant. -/
lemma pollStep_inv (s : RunState) (e : PollEv) (h : RunInv s) :
    RunInv (pollStep s e) := by
  obtain ⟨hle, hiff⟩ := h
  cases e with
  | fire =>
    unfold pollStep
    by_cases hr : s.isRunning = true
    · rw [if_pos hr]
      exact ⟨hle, hiff⟩
    · rw [if_neg hr]
      have h0 : s.inFlight = 0 := by
        rcases Nat.lt_or_ge s.inFlight 1 with h1 | h1
        · omega
        · exact absurd (hiff.mpr (by omega)) hr
      exact ⟨by simp [h0], by simp [h0]⟩
  | complete =>
    unfold pollStep
    by_cases h0 : s.inFlight = 0
    · rw [if_pos h0]
      exact ⟨hle, hiff⟩
    · rw [if_neg h0]
      have h1 : s.inFlight = 1 := by omega
      exact ⟨by simp [h1], by simp [h1]⟩

/-- The re-entrancy invariant propagated through any event sequence. -/
lemma runFold_inv (evs : List PollEv) :
    ∀ s : RunState, RunInv s → RunInv (evs.foldl pollStep s) := by
  induction evs with
  | nil => intro s h; exact h
  | cons e evs ih => intro s h; exact ih (pollStep s e) (pollStep_inv s e h)

/-- Claim C3: under every interleaving of timer firings and completions, at
most one tick execution is in flight (and the guard flag is set exactly while
one is); moreover a firing that finds `isRunning` set is dropped entirely —
the state, including the count of fetches started, is unchanged. -/
theorem tick_never_reentered :
    (∀ evs : List PollEv, RunInv (evs.foldl pollStep runInit) ∧
      (evs.foldl pollStep runInit).inFlight ≤ 1) ∧
    (∀ s : RunState, s.isRunning = true → pollStep s .fire = s) := by
  constructor
  · intro evs
    have h := runFold_inv evs runInit ⟨by simp [runInit], by simp [runInit]⟩
    exact ⟨h, h.1⟩
  · intro s h
    unfold pollStep
    rw [if_pos h]

/-- Claim C3 witness: a double firing with one completion keeps the
invariant, and a firing over a running state is the identity. -/
theorem tick_never_reentered_witness :
    (RunInv ([PollEv.fire, PollEv.fire, PollEv.complete].foldl pollStep runInit) ∧
      ([PollEv.fire, PollEv.fire, PollEv.complete].foldl pollStep
        runInit).inFlight ≤ 1) ∧
    pollStep { isRunning := true, inFlight := 1, started := 1 } .fire =
      { isRunning := true, inFlight := 1, started := 1 } :=
  ⟨tick_never_reentered.1 [PollEv.fire, PollEv.fire, PollEv.complete],
    tick_never_reentered.2 { isRunning := true, inFlight := 1, started := 1 } rfl⟩

/-- Closed form of `runOnce`: the guard either skips or the body runs to the
`finally`, and the result is an ok value in both cases. -/
lemma runOnce_spec (res : Except String Unit) (s : PollerModel) :
    runOnce res s =
      if s.isRunning = true then Except.ok (s, false)
      else Except.ok ({ s with isRunning := false }, true) := by
  unfold runOnce
  by_cases hr : s.isRunning = true <;> cases res <;> simp [hr]

/-- Claim C7: an error raised by the tick fetch is caught inside `runOnce`
and never propagated (the result is always ok, not an exception); when the
guard did not block, `isRunning` ends up false whatever the fetch outcome;
and a timer callback before the deadline leaves the timer armed with the
same handle, deadline and armed count regardless of the fetch outcome. -/
theorem tick_failure_contained (res : Except String Unit) (s : PollerModel) :
    (runOnce res s).isOk = true ∧
    (s.isRunning = false →
      runOnce res s = Except.ok ({ s with isRunning := false }, true)) ∧
    (∀ now, ¬ (s.runningUntil < now) →
      (intervalTick now res s).timer = s.timer ∧
      (intervalTick now res s).armed = s.armed ∧
      (intervalTick now res s).runningUntil = s.runningUntil) := by
  refine ⟨?_, ?_, ?_⟩
  · rw [runOnce_spec]
    split <;> rfl
  · intro h
    rw [runOnce_spec, if_neg (by simp [h])]
  · intro now hle
    unfold intervalTick
    rw [if_neg hle, runOnce_spec]
    by_cases hr : s.isRunning = true
    · rw [if_pos hr]
      exact ⟨rfl, rfl, rfl⟩
    · rw [if_neg hr]
      exact ⟨rfl, rfl, rfl⟩

/-- Claim C7 witness: a failing fetch on an armed idle poller completes
without propagating, resets the guard, and an in-deadline tick keeps the
timer. -/
theorem tick_failure_contained_witness :
    runOnce (Except.error "boom") ⟨some 5, 100, false, 1, 1⟩ =
      Except.ok ((⟨some 5, 100, false, 1, 1⟩ : PollerModel), true) ∧
    (intervalTick 50 (Except.error "boom")
      (⟨some 5, 100, false, 1, 1⟩ : PollerModel)).timer = some 5 := by
  have h := tick_failure_contained (Except.error "boom")
    ⟨some 5, 100, false, 1, 1⟩
  exact ⟨h.2.1 rfl, (h.2.2 50 (by norm_num)).1⟩

/-- Membership after folding marks over a seen set: an id is seen afterwards
iff it was seen before or is among the marks. -/
lemma hasResponded_foldl (l : List String) :
    ∀ (s : Finset String) (id : String),
      hasResponded (l.foldl markResponded s) id = true ↔
        hasResponded s id = true ∨ id ∈ l := by
  induction l with
  | nil =>
    intro s id
    simp
  | cons x l ih =>
    intro s id
    rw [List.foldl_cons, ih]
    unfold hasResponded markResponded
    simp only [decide_eq_true_eq, Finset.mem_insert, List.mem_cons]
    tauto

/-- Claim C8: once marked, an id stays responded across any further marks;
an id never marked is not responded; and a reply whose id is already in the
seen set never appears among the unread replies of a later tick. -/
theorem replied_set_dedup (seen : Finset String) (id : String)
    (marks : List String) (ns : List BskyNotification) :
    hasResponded (markResponded seen id) id = true ∧
    hasResponded (marks.foldl markResponded (markResponded seen id)) id = true ∧
    (id ∉ marks → hasResponded (marks.foldl markResponded ∅) id = false) ∧
    (hasResponded seen id = true →
      ∀ n ∈ unreadReplies seen ns, n.uri ≠ id) := by
  have hmark : hasResponded (markResponded seen id) id = true := by
    unfold hasResponded markResponded
    simp
  refine ⟨hmark, ?_, ?_, ?_⟩
  · rw [hasResponded_foldl]
    exact Or.inl hmark
  · intro hnot
    rw [Bool.eq_false_iff]
    intro hmem
    rcases (hasResponded_foldl marks ∅ id).mp hmem with h | h
    · unfold hasResponded at h
      simp at h
    · exact hnot h
  · intro hseen n hn huri
    unfold unreadReplies at hn
    have := List.of_mem_filter hn
    rw [huri] at this
    simp [hseen] at this

/-- Claim C8 witness: the id "a", once marked, survives two later marks; an
id never marked is not responded. -/
theorem replied_set_dedup_witness :
    hasResponded (markResponded {"a"} "a") "a" = true ∧
    hasResponded (["b", "c"].foldl markResponded (markResponded {"a"} "a"))
      "a" = true ∧
    hasResponded (["b", "c"].foldl markResponded ∅) "a" = false := by
  have h := replied_set_dedup {"a"} "a" ["b", "c"]
    [{ uri := "a", reason := "reply" }]
  exact ⟨h.1, h.2.1, h.2.2.1 (by decide)⟩

/-- Structure of one reply-processing tick: the posted uris are exactly the
longest prefix of replies whose steps all succeeded, the seen set grows by
exactly those uris, and the tick succeeds iff every reply succeeded. -/
lemma processReplies_spec (replies : List (String × Except String Unit)) :
    ∀ seen : Finset String,
      (processReplies seen replies).posted =
        (replies.takeWhile (fun p => p.2.isOk)).map Prod.fst ∧
      (processReplies seen replies).seen =
        ((replies.takeWhile (fun p => p.2.isOk)).map Prod.fst).foldl
          markResponded seen ∧
      ((processReplies seen replies).failure = none ↔
        ∀ p ∈ replies, p.2.isOk = true) := by
  induction replies with
  | nil =>
    intro seen
    refine ⟨rfl, rfl, ?_⟩
    simp [processReplies]
  | cons pr rest ih =>
    intro seen
    obtain ⟨uri, out⟩ := pr
    cases out with
    | error e =>
      have ht : List.takeWhile
          (fun p : String × Except String Unit => p.2.isOk)
          ((uri, Except.error e) :: rest) = [] := rfl
      refine ⟨?_, ?_, ?_⟩
      · rw [ht]
        rfl
      · rw [ht]
        rfl
      · constructor
        · intro h
          exact Option.noConfusion h
        · intro h
          have hh := h (uri, Except.error e) (List.mem_cons_self _ _)
          exact Bool.noConfusion hh
    | ok u =>
      obtain ⟨hp, hs, hf⟩ := ih (markResponded seen uri)
      have ht : List.takeWhile
          (fun p : String × Except String Unit => p.2.isOk)
          ((uri, Except.ok u) :: rest) =
          (uri, Except.ok u) ::
            List.takeWhile (fun p : String × Except String Unit => p.2.isOk)
              rest := rfl
      refine ⟨?_, ?_, ?_⟩
      · rw [ht, List.map_cons, ← hp]
        rfl
      · rw [ht, List.map_cons, List.foldl_cons, ← hs]
        rfl
      · rw [show (processReplies seen ((uri, Except.ok u) :: rest)).failure =
            (processReplies (markResponded seen uri) rest).failure from rfl, hf]
        constructor
        · intro h p hp2
          rcases List.mem_cons.mp hp2 with h1 | h1
          · subst h1
            rfl
          · exact h p h1
        · intro h p hp2
          exact h p (List.mem_cons_of_mem _ hp2)

/-- Claim C9: within one tick, an id is marked responded exactly when its
response was posted: the posted uris are the longest all-steps-succeeded
prefix of the unseen replies (a throw aborts the rest of the tick), the seen
set afterwards is the initial set plus exactly the posted uris (earlier
marks of the same tick remain), the tick's handler answers 200 iff the
prelude, every reply step and the post-loop notification update all
succeeded (500 otherwise), and once the prelude ran, the returned seen set
is that of the loop whatever the post-loop update did. -/
theorem tick_marks_only_posted (seen : Finset String)
    (replies : List (String × Except String Unit)) :
    (processReplies seen replies).posted =
      (replies.takeWhile (fun p => p.2.isOk)).map Prod.fst ∧
    (processReplies seen replies).seen =
      ((replies.takeWhile (fun p => p.2.isOk)).map Prod.fst).foldl
        markResponded seen ∧
    ((processReplies seen replies).failure = none ↔
      ∀ p ∈ replies, p.2.isOk = true) ∧
    (∀ u, hasResponded (processReplies seen replies).seen u = true ↔
      (hasResponded seen u = true ∨ u ∈ (processReplies seen replies).posted)) ∧
    (∀ preludeOk updateSeenOk,
      (blueskyCommentsPOST preludeOk seen replies updateSeenOk).2 = 200 ↔
        (preludeOk = true ∧ (processReplies seen replies).failure = none ∧
          updateSeenOk = true)) ∧
    (∀ updateSeenOk,
      (blueskyCommentsPOST true seen replies updateSeenOk).1 =
        (processReplies seen replies).seen) := by
  obtain ⟨hp, hs, hf⟩ := processReplies_spec replies seen
  refine ⟨hp, hs, hf, ?_, ?_, ?_⟩
  · intro u
    rw [hs, hp, hasResponded_foldl]
  · intro preludeOk updateSeenOk
    unfold blueskyCommentsPOST
    cases preludeOk with
    | false => simp
    | true =>
      simp only [Bool.true_eq_false, if_false, true_and]
      cases hfl : (processReplies seen replies).failure with
      | some e => simp
      | none =>
        cases updateSeenOk <;> simp
  · intro updateSeenOk
    unfold blueskyCommentsPOST
    simp only [Bool.true_eq_false, if_false]
    cases hfl : (processReplies seen replies).failure with
    | some e => rfl
    | none => cases updateSeenOk <;> rfl

/-- Claim C9 witness: with replies a (ok), b (throws), c (ok), only a is
posted and marked, b and c are untouched, and the handler answers 500; and
when the loop succeeds but the post-loop notification update throws, the
handler still answers 500 while a stays marked. -/
theorem tick_marks_only_posted_witness :
    (processReplies ∅ [("a", Except.ok ()), ("b", Except.error "boom"),
      ("c", Except.ok ())]).posted = ["a"] ∧
    hasResponded (processReplies ∅ [("a", Except.ok ()),
      ("b", Except.error "boom"), ("c", Except.ok ())]).seen "a" = true ∧
    hasResponded (processReplies ∅ [("a", Except.ok ()),
      ("b", Except.error "boom"), ("c", Except.ok ())]).seen "b" = false ∧
    hasResponded (processReplies ∅ [("a", Except.ok ()),
      ("b", Except.error "boom"), ("c", Except.ok ())]).seen "c" = false ∧
    (blueskyCommentsPOST true ∅ [("a", Except.ok ()),
      ("b", Except.error "boom"), ("c", Except.ok ())] true).2 = 500 ∧
    (blueskyCommentsPOST true ∅ [("a", Except.ok ())] false).2 = 500 ∧
    hasResponded (blueskyCommentsPOST true ∅ [("a", Except.ok ())] false).1
      "a" = true := by
  have h := tick_marks_only_posted ∅ [("a", Except.ok ()),
    ("b", Except.error "boom"), ("c", Except.ok ())]
  have hu := tick_marks_only_posted ∅ [("a", Except.ok ())]
  have hposted : (processReplies ∅ [("a", Except.ok ()),
      ("b", Except.error "boom"), ("c", Except.ok ())]).posted = ["a"] := by
    rw [h.1]
    rfl
  refine ⟨hposted, ?_, ?_, ?_, ?_, ?_, ?_⟩
  · rw [h.2.2.2.1 "a", hposted]
    right
    exact List.mem_singleton.mpr rfl
  · rw [Bool.eq_false_iff]
    intro hb
    rcases (h.2.2.2.1 "b").mp hb with h1 | h1
    · simp [hasResponded] at h1
    · rw [hposted] at h1
      simp at h1
  · rw [Bool.eq_false_iff]
    intro hc
    rcases (h.2.2.2.1 "c").mp hc with h1 | h1
    · simp [hasResponded] at h1
    · rw [hposted] at h1
      simp at h1
  · have h200 := h.2.2.2.2.1 true true
    rfl
  · have h500 := hu.2.2.2.2.1 true false
    rfl
  · rw [hu.2.2.2.2.2 false, hu.2.2.2.1 "a"]
    right
    rw [show (processReplies ∅ [("a", Except.ok ())]).posted = ["a"] from
      by rw [hu.1]; rfl]
    exact List.mem_singleton.mpr rfl

/-- A start call always leaves a timer armed: either one was live already or
one is armed now. -/
lemma start_arms_timer (c : StartCall) (s : PollerModel) :
    (startBlueskyCommentPolling c s).timer.isSome = true := by
  unfold startBlueskyCommentPolling
  by_cases ht : s.timer.isSome = true
  · rw [if_pos ht]
    exact ht
  · rw [if_neg ht]
    rfl

/-- The handler writes the location cache on a successful run with two
numeric coordinates. -/
lemma firePOST_loc_num (now : Int) (a b : ℚ) (image : Option String)
    (st : ServerState) :
    (fireDetectionPOST now ⟨JVal.num a, JVal.num b, image⟩ true st).1.alertLocation =
      setAlertLocation a b now st.alertLocation := rfl

/-- Frame of a successful run whose coordinates are not both numeric: the
alert is still posted and the poller started, but the location cache (and
what `getAlertLocation` reads from it) is untouched. -/
lemma firePOST_frame (now : Int) (body : FireBody) (st : ServerState)
    (h : (body.lat.isNumber && body.lng.isNumber) = false) :
    (fireDetectionPOST now body true st).1.alertLocation = st.alertLocation ∧
    getAlertLocation (fireDetectionPOST now body true st).1.alertLocation =
      getAlertLocation st.alertLocation ∧
    (fireDetectionPOST now body true st).1.alertPosts = st.alertPosts + 1 ∧
    (fireDetectionPOST now body true st).1.poller.timer.isSome = true := by
  obtain ⟨lat, lng, image⟩ := body
  cases lat <;> cases lng <;>
    first
      | exact ⟨rfl, rfl, rfl, start_arms_timer _ _⟩
      | (simp [JVal.isNumber] at h)

/-- Claim C10: the fire-detection handler writes the alert location cache iff
the run succeeds and both `lat` and `lng` in the body are numbers; a
successful run without numeric coordinates still posts the alert and starts
the poller while the cache, as read by `getAlertLocation`, is unchanged. -/
theorem alert_location_write_guard (now : Int) (body : FireBody)
    (remoteOk : Bool) (st : ServerState) :
    ((fireDetectionPOST now body remoteOk st).1.alertLocation ≠ st.alertLocation →
      body.lat.isNumber = true ∧ body.lng.isNumber = true ∧ remoteOk = true) ∧
    (remoteOk = true → ∀ a b, body.lat = JVal.num a → body.lng = JVal.num b →
      (fireDetectionPOST now body remoteOk st).1.alertLocation =
        setAlertLocation a b now st.alertLocation) ∧
    (remoteOk = true →
      (body.lat.isNumber = true ∧ body.lng.isNumber = true → False) →
      (fireDetectionPOST now body remoteOk st).1.alertLocation =
        st.alertLocation ∧
      getAlertLocation (fireDetectionPOST now body remoteOk st).1.alertLocation =
        getAlertLocation st.alertLocation ∧
      (fireDetectionPOST now body remoteOk st).1.alertPosts = st.alertPosts + 1 ∧
      (fireDetectionPOST now body remoteOk st).1.poller.timer.isSome = true) := by
  refine ⟨?_, ?_, ?_⟩
  · intro hne
    cases remoteOk with
    | false => exact absurd rfl hne
    | true =>
      by_cases hl : body.lat.isNumber = true
      · by_cases hg : body.lng.isNumber = true
        · exact ⟨hl, hg, rfl⟩
        · exact absurd (firePOST_frame now body st
            (by rw [Bool.eq_false_iff.mpr hg, Bool.and_false])).1 hne
      · exact absurd (firePOST_frame now body st
          (by rw [Bool.eq_false_iff.mpr hl, Bool.false_and])).1 hne
  · intro htrue a b ha hb
    subst htrue
    obtain ⟨lat, lng, image⟩ := body
    cases ha
    cases hb
    exact firePOST_loc_num now a b image st
  · intro htrue hcon
    subst htrue
    have h : (body.lat.isNumber && body.lng.isNumber) = false := by
      cases h1 : body.lat.isNumber
      · rw [Bool.false_and]
      · cases h2 : body.lng.isNumber
        · rw [Bool.and_false]
        · exact absurd ⟨h1, h2⟩ hcon
    exact firePOST_frame now body st h

/-- Claim C10 witness: with numeric coordinates (1, 2) the cache is written
at time 7; with `lat` undefined the alert is still posted once and the
poller armed while the cache stays empty. -/
theorem alert_location_write_guard_witness :
    (fireDetectionPOST 7 ⟨JVal.num 1, JVal.num 2, none⟩ true
        ⟨none, pollerInit, 0⟩).1.alertLocation =
      setAlertLocation 1 2 7 none ∧
    (fireDetectionPOST 7 ⟨JVal.undef, JVal.num 2, none⟩ true
        ⟨none, pollerInit, 0⟩).1.alertLocation = none ∧
    (fireDetectionPOST 7 ⟨JVal.undef, JVal.num 2, none⟩ true
        ⟨none, pollerInit, 0⟩).1.alertPosts = 1 ∧
    (fireDetectionPOST 7 ⟨JVal.undef, JVal.num 2, none⟩ true
        ⟨none, pollerInit, 0⟩).1.poller.timer.isSome = true := by
  have h1 := (alert_location_write_guard 7 ⟨JVal.num 1, JVal.num 2, none⟩ true
    ⟨none, pollerInit, 0⟩).2.1 rfl 1 2 rfl rfl
  have h2 := (alert_location_write_guard 7 ⟨JVal.undef, JVal.num 2, none⟩ true
    ⟨none, pollerInit, 0⟩).2.2 rfl (fun hc => Bool.noConfusion hc.1)
  exact ⟨h1, h2.1, h2.2.2.1, h2.2.2.2⟩
